import Mathlib

/-!
Verification of the Registrar core: the bulk enrollment-write reconciler,
the asynchronous job subsystem (ledger, executor reporting, status endpoint),
the CSV export pipeline, and the enrollment CSV upload header validation.

The repository sources available here are the API test suites, URL routing,
admin and migration files; the view/job/serialization implementations are
not present.  Where a definition embeds such missing code, its doc comment
starts with `Modelled from the spec:` and the model follows the specification
document (spec.md), constrained by the behaviour pinned in the repository's
test suites under `registrar/apps/api/v1/tests/test_views.py` and
`registrar/apps/api/v1_mock/tests/test_views.py`.
-/

namespace Registrar

/-- One element of a client-submitted enrollment-write batch (spec §3,
`EnrollmentWriteRequest`): an opaque student identifier and a requested
status string. -/
structure Request where
  student_key : String
  status : String
deriving DecidableEq, Repr

/-- Association-list lookup: the value of the first pair whose key matches.
Result maps and the job ledger are embedded as association lists. -/
def alookup {β : Type} (k : String) : List (String × β) → Option β
  | [] => none
  | kv :: rest => if kv.1 = k then some kv.2 else alookup k rest

/-- Modelled from the spec: membership in the externally-owned enumeration of
valid enrollment statuses (§3, §4.4 step 4). -/
def isValidStatus (valid : List String) (s : String) : Bool :=
  decide (s ∈ valid)

/-- Modelled from the spec: the duplicate pass of §4.4 step 3 — only the first
occurrence of each student key is kept; `seen` accumulates keys already taken. -/
def dedupFirst : List Request → List String → List Request
  | [], _ => []
  | r :: rs, seen =>
    if r.student_key ∈ seen then dedupFirst rs seen
    else r :: dedupFirst rs (r.student_key :: seen)

/-- Number of occurrences of student key `k` in a batch. -/
def countKey (k : String) (l : List Request) : Nat :=
  l.countP (fun r => decide (r.student_key = k))

/-- Modelled from the spec: the student keys that occur more than once in the
batch (§4.4 step 3), listed once each in first-appearance order. -/
def dupKeys (reqs : List Request) : List String :=
  ((dedupFirst reqs []).map Request.student_key).filter
    (fun k => decide (2 ≤ countKey k reqs))

/-- Result-map entries claimed by the duplicate pass (§4.4 step 3). -/
def dupEntries (reqs : List Request) : List (String × String) :=
  (dupKeys reqs).map (fun k => (k, "duplicated"))

/-- Modelled from the spec: result-map entries claimed by the status-validity
pass (§4.4 step 4), over the entries remaining after duplicate removal. -/
def invalidEntries (valid : List String) (reqs : List Request) : List (String × String) :=
  ((dedupFirst reqs []).filter (fun r => !(isValidStatus valid r.status))).map
    (fun r => (r.student_key, "invalid-status"))

/-- Modelled from the spec: the payload forwarded to the enrollment backend
(§4.4 step 5): deduplicated entries whose requested status is valid. -/
def forwardedPayload (valid : List String) (reqs : List Request) : List Request :=
  (dedupFirst reqs []).filter (fun r => isValidStatus valid r.status)

/-- Claim a slot in the result map: a key already claimed keeps its first
value (§4.4 tie-break rule, "first-claimed wins"). -/
def claimSlot (m : List (String × String)) (kv : String × String) : List (String × String) :=
  if (alookup kv.1 m).isSome then m else m ++ [kv]

/-- Claim a list of slots in order, first-claimed winning (§4.4 steps 3 → 4 → 6). -/
def claimAll (m : List (String × String)) (adds : List (String × String)) : List (String × String) :=
  adds.foldl claimSlot m

/-- Set a slot in the result map, overwriting any earlier claim for the key
(used by §4.4 step 7, which marks every forwarded entry `internal-error`). -/
def setSlot (m : List (String × String)) (k v : String) : List (String × String) :=
  if (alookup k m).isSome then m.map (fun kv => if kv.1 = k then (k, v) else kv)
  else m ++ [(k, v)]

/-- Set a list of slots in order, each overwriting earlier claims for its key. -/
def setAll (m : List (String × String)) (entries : List (String × String)) : List (String × String) :=
  entries.foldl (fun acc kv => setSlot acc kv.1 kv.2) m

/-- Modelled from the spec: the backend enrollment-write call's observable
outcome (§3, `EnrollmentWriteOutcome`): either a transport error, or an HTTP
status code together with a per-student outcome map. -/
inductive BackendReply where
  | transportError
  | http (code : Nat) (outcomes : List (String × String))
deriving DecidableEq, Repr

/-- Modelled from the spec: replies whose per-student outcomes are merged into
the result map (§4.4 step 6) — a 2xx, 207, or 422 reply carries a per-student
map; anything else (or a transport error) counts as the backend failing
entirely (§4.4 step 7). -/
def mergedOutcomes : BackendReply → Option (List (String × String))
  | .transportError => none
  | .http code outcomes =>
    if code / 100 = 2 ∨ code = 207 ∨ code = 422 then some outcomes else none

/-- The backend reply classes whose outcomes are merged (§4.4 steps 6–7). -/
def backendMerges (reply : BackendReply) : Bool :=
  (mergedOutcomes reply).isSome

/-- Modelled from the spec: the aggregate HTTP status code computed from the
merged result map (§4.4 step 8): no failure entry → 200; failures but no
success → 422; a mix → 207.  An entry succeeds when its outcome value lies in
the valid-status enumeration. -/
def aggregateCode (valid : List String) (m : List (String × String)) : Nat :=
  if (m.filter (fun kv => !(isValidStatus valid kv.2))).isEmpty then 200
  else if (m.filter (fun kv => isValidStatus valid kv.2)).isEmpty then 422
  else 207

/-- Modelled from the spec: the Bulk-Write Reconciler (§4.4 steps 3–8), run on
a batch that already passed structural and size validation.  Duplicate and
invalid-status marks claim their slots first; then either the backend
outcomes are merged into unclaimed slots and the aggregate code computed from
the map, or — when the backend call failed entirely — every actually
forwarded entry is marked `internal-error` and the aggregate code is 422.
The function is total: no backend failure escapes as an exception. -/
def reconcile (valid : List String) (reqs : List Request) (reply : BackendReply) :
    List (String × String) × Nat :=
  let preMap := claimAll (claimAll [] (dupEntries reqs)) (invalidEntries valid reqs)
  match mergedOutcomes reply with
  | some outcomes =>
    let m := claimAll preMap outcomes
    (m, aggregateCode valid m)
  | none =>
    let m := setAll preMap
      ((forwardedPayload valid reqs).map (fun r => (r.student_key, "internal-error")))
    (m, 422)

/-- Modelled from the spec: an enrollment-write endpoint response after
structural validation (§4.4 steps 2 and 5–8): either a fail-fast
payload-too-large response or a reconciled result map with its aggregate
code. -/
inductive WriteResponse where
  | payloadTooLarge
  | result (m : List (String × String)) (code : Nat)
deriving DecidableEq, Repr

/-- HTTP status code of an enrollment-write response. -/
def WriteResponse.httpCode : WriteResponse → Nat
  | .payloadTooLarge => 413
  | .result _ code => code

/-- Modelled from the spec: the enrollment-write path (§4.4 step 2 onward).
The second component is the payload sent to the backend — `none` means the
backend was never called.  A batch longer than the configured maximum fails
fast with 413 before any backend call. -/
def enrollmentWrite (valid : List String) (maxSize : Nat) (reqs : List Request)
    (reply : BackendReply) : WriteResponse × Option (List Request) :=
  if maxSize < reqs.length then (.payloadTooLarge, none)
  else
    let (m, code) := reconcile valid reqs reply
    (.result m code, some (forwardedPayload valid reqs))

/-- Program enrollment statuses accepted in the v1_mock test suite. -/
def programStatuses : List String := ["enrolled", "pending", "suspended", "canceled"]

/-- Modelled from the spec: the job state enumeration of §4.1 —
`Pending → InProgress → Succeeded or Failed`, `Pending/InProgress → Canceled`,
`InProgress → Retrying → InProgress`. -/
inductive JobState where
  | pending
  | inProgress
  | retrying
  | succeeded
  | failed
  | canceled
deriving DecidableEq, Repr

/-- Serialization of a job state as the string exposed by the API, matching
the state strings asserted in the repository's job tests. -/
def JobState.serialize : JobState → String
  | .pending => "Pending"
  | .inProgress => "In Progress"
  | .retrying => "Retrying"
  | .succeeded => "Succeeded"
  | .failed => "Failed"
  | .canceled => "Canceled"

/-- The terminal job states (§4.1). -/
def JobState.isTerminal : JobState → Bool
  | .succeeded | .failed | .canceled => true
  | _ => false

/-- Modelled from the spec: one Job Ledger entry (§3, §4.1): owning user,
state, creation timestamp, optional status text, optional result locator. -/
structure JobEntry where
  owner : String
  state : JobState
  created : Nat
  text : Option String
  resultPath : Option String
deriving DecidableEq, Repr

/-- The Job Ledger: entries keyed by job id (§4.1). -/
abbrev Ledger := List (String × JobEntry)

/-- Modelled from the spec: `create(owner)` inserts a fresh entry in the
initial Pending state (§4.1). -/
def createJob (L : Ledger) (jobId owner : String) (now : Nat) : Ledger :=
  (jobId, ⟨owner, .pending, now, none, none⟩) :: L

/-- Apply a function to the ledger entry of `jobId`; a silent no-op when the
id is unknown (§4.1 `transition`). -/
def setEntry (L : Ledger) (jobId : String) (f : JobEntry → JobEntry) : Ledger :=
  L.map (fun kv => if kv.1 = jobId then (kv.1, f kv.2) else kv)

/-- The Result Store: durable blobs keyed by opaque path (§2). -/
abbrev Store := List (String × String)

/-- Modelled from the spec: the artifact path derived from job id and format
extension (§3, `ResultArtifact`). -/
def artifactPath (jobId fmt : String) : String :=
  "/job-results/" ++ jobId ++ "." ++ fmt

/-- Modelled from the spec: a public time-limited URL for a stored artifact
(§2, Result Store), valid for `expiresIn` seconds. -/
def storeUrl (path : String) (expiresIn : Nat) : String :=
  path ++ "?expires=" ++ toString expiresIn

/-- How long generated result URLs stay valid. -/
def urlTimeBound : Nat := 3600

/-- Modelled from the spec: `report_success(job_id, content, format)` (§4.2):
write the serialized content into the Result Store under a path keyed by job
id and format, then transition the ledger entry to Succeeded with the result
locator attached (and the optional coarse status text used by the grades
job). -/
def post_job_success (L : Ledger) (store : Store) (jobId content fmt : String)
    (text : Option String) : Ledger × Store :=
  (setEntry L jobId
    (fun e => ⟨e.owner, .succeeded, e.created, text, some (artifactPath jobId fmt)⟩),
    store ++ [(artifactPath jobId fmt, content)])

/-- The message logged when a job fails, containing the job id and the
failure message. -/
def failureLogMessage (jobId reason : String) : String :=
  "Job " ++ jobId ++ " failed: " ++ reason

/-- Modelled from the spec: `report_failure(job_id, reason_text)` (§4.2):
transition the ledger entry to Failed and log the failure.  Per the
repository's test `JobStatusRetrieveViewTests.test_failed_job`, the failed
entry's visible status text is null and its result locator is absent; the
reason text goes to the error log together with the job id. -/
def post_job_failure (L : Ledger) (log : List String) (jobId reason : String) :
    Ledger × List String :=
  (setEntry L jobId (fun e => ⟨e.owner, .failed, e.created, none, none⟩),
    log ++ [failureLogMessage jobId reason])

/-- The view of a job status returned by the Job Status Endpoint (§4.3). -/
structure JobStatusView where
  state : String
  created : Nat
  text : Option String
  result : Option String
deriving DecidableEq, Repr

/-- Modelled from the spec: build the status view of a ledger entry (§4.3) —
state serialized as a string, creation timestamp, nullable status text, and a
time-bounded artifact URL only when the state is Succeeded. -/
def mkView (e : JobEntry) : JobStatusView :=
  { state := e.state.serialize
    created := e.created
    text := e.text
    result :=
      if e.state = .succeeded then e.resultPath.map (fun p => storeUrl p urlTimeBound)
      else none }

/-- Outcome of the Job Status Endpoint (§4.3). -/
inductive GetStatusResult where
  | notFound
  | forbidden
  | ok (view : JobStatusView)
deriving DecidableEq, Repr

/-- Modelled from the spec: `get_status(requesting_user, job_id)` (§4.3):
NotFound when the id resolves to no ledger entry; Forbidden when the
requester is neither the owner nor holds the global job-read capability
(`globalRead`); otherwise the job status view. -/
def get_status (L : Ledger) (user : String) (globalRead : Bool) (jobId : String) :
    GetStatusResult :=
  match alookup jobId L with
  | none => .notFound
  | some e => if user = e.owner ∨ globalRead = true then .ok (mkView e) else .forbidden

/-- The job states shown by the job list endpoint. -/
def JobState.isProcessing : JobState → Bool
  | .pending | .inProgress | .retrying => true
  | _ => false

/-- Modelled from the spec: the `GET /jobs/` listing (§6), restricted per the
repository's `JobStatusListView` tests: exactly the requesting user's jobs in
a processing state (Pending, In Progress, Retrying) are returned. -/
def listJobs (L : Ledger) (user : String) : List (String × JobEntry) :=
  L.filter (fun kv => decide (kv.2.owner = user) && kv.2.state.isProcessing)

/-- The job list endpoint always answers 200 with the filtered list. -/
def jobListResponse (L : Ledger) (user : String) : Nat × List (String × JobEntry) :=
  (200, listJobs L user)

/-! ### Association-list and slot-claiming lemmas -/

/-- Left-biased choice on options, describing lookups over appended maps. -/
def orO {β : Type} : Option β → Option β → Option β
  | some v, _ => some v
  | none, o => o

lemma orO_none_right {β : Type} (o : Option β) : orO o none = o := by
  cases o <;> rfl

lemma alookup_append {β : Type} (k : String) (l1 l2 : List (String × β)) :
    alookup k (l1 ++ l2) = orO (alookup k l1) (alookup k l2) := by
  induction l1 with
  | nil => simp [alookup, orO]
  | cons kv rest ih =>
    by_cases h : kv.1 = k
    · simp [alookup, h, orO]
    · simp [alookup, h, ih]

lemma alookup_ne_nil {β : Type} (k : String) (m : List (String × β))
    (h : (alookup k m).isSome = true) : m ≠ [] := by
  intro hnil
  rw [hnil] at h
  simp [alookup] at h

lemma alookup_isSome_of_mem_keys {β : Type} (k : String) (m : List (String × β))
    (h : k ∈ m.map Prod.fst) : (alookup k m).isSome = true := by
  induction m with
  | nil => cases h
  | cons kv rest ih =>
    rcases List.mem_cons.mp h with heq | hmem
    · simp [alookup, heq.symm]
    · by_cases hk : kv.1 = k
      · simp [alookup, hk]
      · simp [alookup, hk, ih hmem]

lemma alookup_claimAll (k : String) (m adds : List (String × String)) :
    alookup k (claimAll m adds) = orO (alookup k m) (alookup k adds) := by
  induction adds generalizing m with
  | nil => simp [claimAll, alookup, orO_none_right]
  | cons kv rest ih =>
    simp only [claimAll, List.foldl_cons] at *
    rw [ih]
    unfold claimSlot
    by_cases hs : (alookup kv.1 m).isSome
    · rw [if_pos hs]
      by_cases hk : kv.1 = k
      · subst hk
        cases hm : alookup kv.1 m
        · rw [hm] at hs; cases hs
        · simp [alookup, hm, orO]
      · simp [alookup, hk]
    · rw [if_neg hs, alookup_append]
      by_cases hk : kv.1 = k
      · subst hk
        cases hm : alookup kv.1 m
        · simp [alookup, hm, orO]
        · rw [hm] at hs; cases hs rfl
      · simp [alookup, hk, orO_none_right]

lemma alookup_map_const (k v : String) (ks : List String) :
    alookup k (ks.map (fun k2 => (k2, v))) = if k ∈ ks then some v else none := by
  induction ks with
  | nil => simp [alookup]
  | cons a rest ih =>
    by_cases h : a = k
    · simp [alookup, h]
    · have h2 : ¬(k = a) := fun he => h he.symm
      simp [alookup, h, ih, List.mem_cons, h2]

lemma mem_claimAll (m adds : List (String × String)) (kv : String × String)
    (h : kv ∈ claimAll m adds) : kv ∈ m ∨ kv ∈ adds := by
  induction adds generalizing m with
  | nil => exact Or.inl h
  | cons a rest ih =>
    simp only [claimAll, List.foldl_cons] at h
    rcases ih (claimSlot m a) h with h2 | h2
    · unfold claimSlot at h2
      split at h2
      · exact Or.inl h2
      · rcases List.mem_append.mp h2 with h3 | h3
        · exact Or.inl h3
        · right
          simp only [List.mem_singleton] at h3
          exact h3 ▸ List.mem_cons_self a rest
    · exact Or.inr (List.mem_cons_of_mem a h2)

lemma alookup_map_update (m : List (String × String)) (k v : String) :
    alookup k (m.map (fun kv => if kv.1 = k then (k, v) else kv)) =
      (alookup k m).map (fun _ => v) := by
  induction m with
  | nil => simp [alookup]
  | cons kv rest ih =>
    by_cases h : kv.1 = k
    · simp [alookup, h]
    · simp [alookup, h, ih]

lemma alookup_map_update_other (m : List (String × String)) (k k2 v : String)
    (h : k2 ≠ k) :
    alookup k2 (m.map (fun kv => if kv.1 = k then (k, v) else kv)) = alookup k2 m := by
  induction m with
  | nil => simp [alookup]
  | cons kv rest ih =>
    by_cases hk : kv.1 = k
    · have : ¬(k = k2) := fun he => h he.symm
      simp [alookup, hk, this, ih, fun he : kv.1 = k2 => h (hk ▸ he ▸ rfl)]
    · by_cases hk2 : kv.1 = k2
      · simp [alookup, hk, hk2, h]
      · simp [alookup, hk, hk2, ih]

lemma alookup_setSlot_self (m : List (String × String)) (k v : String) :
    alookup k (setSlot m k v) = some v := by
  unfold setSlot
  by_cases hs : (alookup k m).isSome
  · rw [if_pos hs, alookup_map_update]
    cases hm : alookup k m
    · rw [hm] at hs; cases hs
    · simp
  · rw [if_neg hs, alookup_append]
    cases hm : alookup k m
    · simp [alookup, orO]
    · rw [hm] at hs; cases hs rfl

lemma alookup_setSlot_other (m : List (String × String)) (k k2 v : String)
    (h : k2 ≠ k) : alookup k2 (setSlot m k v) = alookup k2 m := by
  unfold setSlot
  by_cases hs : (alookup k m).isSome
  · rw [if_pos hs, alookup_map_update_other m k k2 v h]
  · rw [if_neg hs, alookup_append]
    have : ¬(k = k2) := fun he => h he.symm
    simp [alookup, this, orO_none_right]

lemma alookup_setAll_preserve (m entries : List (String × String)) (k : String)
    (h : ∀ e ∈ entries, e.1 ≠ k) :
    alookup k (setAll m entries) = alookup k m := by
  induction entries generalizing m with
  | nil => rfl
  | cons e rest ih =>
    simp only [setAll, List.foldl_cons]
    show alookup k (setAll (setSlot m e.1 e.2) rest) = _
    rw [ih (setSlot m e.1 e.2) (fun e2 he2 => h e2 (List.mem_cons_of_mem e he2)),
      alookup_setSlot_other m e.1 k e.2
        (fun he => h e (List.mem_cons_self e rest) he.symm)]

lemma alookup_setAll_mem (m entries : List (String × String)) (k v : String)
    (hnd : (entries.map Prod.fst).Nodup) (hmem : (k, v) ∈ entries) :
    alookup k (setAll m entries) = some v := by
  induction entries generalizing m with
  | nil => cases hmem
  | cons e rest ih =>
    simp only [setAll, List.foldl_cons]
    show alookup k (setAll (setSlot m e.1 e.2) rest) = some v
    rcases List.mem_cons.mp hmem with heq | hrest
    · have he : e = (k, v) := heq.symm
      subst he
      simp only [List.map_cons] at hnd
      have hnotin : k ∉ rest.map Prod.fst := by
        have h0 := (List.nodup_cons.mp hnd).1
        simpa using h0
      rw [alookup_setAll_preserve _ _ _
          (fun e2 he2 heq2 =>
            hnotin (by rw [← heq2]; exact List.mem_map_of_mem Prod.fst he2))]
      exact alookup_setSlot_self m k v
    · exact ih (setSlot m e.1 e.2) (List.nodup_cons.mp hnd).2 hrest

lemma alookup_setSlot_isSome (m : List (String × String)) (k k2 v : String)
    (h : (alookup k2 m).isSome = true) :
    (alookup k2 (setSlot m k v)).isSome = true := by
  by_cases hk : k2 = k
  · subst hk; rw [alookup_setSlot_self]; rfl
  · rw [alookup_setSlot_other m k k2 v hk]; exact h

lemma alookup_setAll_isSome (m entries : List (String × String)) (k2 : String)
    (h : (alookup k2 m).isSome = true) :
    (alookup k2 (setAll m entries)).isSome = true := by
  induction entries generalizing m with
  | nil => exact h
  | cons e rest ih =>
    simp only [setAll, List.foldl_cons]
    exact ih (setSlot m e.1 e.2) (alookup_setSlot_isSome m e.1 k2 e.2 h)

lemma mem_setSlot (m : List (String × String)) (k v : String) (kv : String × String)
    (h : kv ∈ setSlot m k v) : kv ∈ m ∨ kv.2 = v := by
  unfold setSlot at h
  split at h
  · rcases List.mem_map.mp h with ⟨kv0, hkv0, heq⟩
    by_cases hk : kv0.1 = k
    · rw [if_pos hk] at heq
      exact Or.inr (by rw [← heq])
    · rw [if_neg hk] at heq
      exact Or.inl (heq ▸ hkv0)
  · rcases List.mem_append.mp h with h2 | h2
    · exact Or.inl h2
    · simp only [List.mem_singleton] at h2
      exact Or.inr (by rw [h2])

lemma mem_setAll (m entries : List (String × String)) (kv : String × String)
    (h : kv ∈ setAll m entries) : kv ∈ m ∨ kv.2 ∈ entries.map Prod.snd := by
  induction entries generalizing m with
  | nil => exact Or.inl h
  | cons e rest ih =>
    simp only [setAll, List.foldl_cons] at h
    rcases ih (setSlot m e.1 e.2) h with h2 | h2
    · rcases mem_setSlot m e.1 e.2 kv h2 with h3 | h3
      · exact Or.inl h3
      · exact Or.inr (by rw [List.map_cons]; exact h3 ▸ List.mem_cons_self _ _)
    · exact Or.inr (by rw [List.map_cons]; exact List.mem_cons_of_mem _ h2)

/-! ### Deduplication-pass lemmas -/

lemma dedupFirst_not_seen (l : List Request) (seen : List String) :
    ∀ r ∈ dedupFirst l seen, r.student_key ∉ seen := by
  induction l generalizing seen with
  | nil => intro r hr; cases hr
  | cons a rest ih =>
    intro r hr
    unfold dedupFirst at hr
    split at hr
    · exact ih seen r hr
    · rcases List.mem_cons.mp hr with heq | h2
      · subst heq; assumption
      · intro hmem
        exact ih (a.student_key :: seen) r h2 (List.mem_cons_of_mem _ hmem)

lemma dedupFirst_keys_nodup (l : List Request) (seen : List String) :
    ((dedupFirst l seen).map Request.student_key).Nodup := by
  induction l generalizing seen with
  | nil => simp [dedupFirst]
  | cons a rest ih =>
    unfold dedupFirst
    split
    · exact ih seen
    · simp only [List.map_cons, List.nodup_cons]
      refine ⟨fun hmem => ?_, ih _⟩
      rcases List.mem_map.mp hmem with ⟨r, hr, hkey⟩
      exact dedupFirst_not_seen rest (a.student_key :: seen) r hr
        (hkey ▸ List.mem_cons_self _ _)

lemma dedupFirst_filter_seen (l : List Request) (seen : List String) (k : String)
    (hk : k ∈ seen) :
    (dedupFirst l seen).filter (fun r => decide (r.student_key = k)) = [] := by
  rw [List.filter_eq_nil_iff]
  intro r hr h
  rw [decide_eq_true_iff] at h
  exact dedupFirst_not_seen l seen r hr (h ▸ hk)

lemma dedupFirst_filter_key (l : List Request) (seen : List String) (k : String)
    (hk : k ∉ seen) :
    (dedupFirst l seen).filter (fun r => decide (r.student_key = k)) =
      (l.find? (fun r => decide (r.student_key = k))).toList := by
  induction l generalizing seen with
  | nil => simp [dedupFirst]
  | cons a rest ih =>
    unfold dedupFirst
    by_cases h1 : a.student_key ∈ seen
    · rw [if_pos h1]
      have hne : ¬(a.student_key = k) := fun he => hk (he ▸ h1)
      rw [ih seen hk, List.find?_cons_of_neg _ (by simp [hne])]
    · rw [if_neg h1]
      by_cases h2 : a.student_key = k
      · rw [List.filter_cons_of_pos (by simp [h2]),
          List.find?_cons_of_pos _ (by simp [h2]),
          dedupFirst_filter_seen rest (a.student_key :: seen) k
            (h2 ▸ List.mem_cons_self _ _)]
        rfl
      · rw [List.filter_cons_of_neg (by simp [h2]),
          List.find?_cons_of_neg _ (by simp [h2])]
        exact ih (a.student_key :: seen)
          (fun hm => (List.mem_cons.mp hm).elim (fun he => h2 he.symm) hk)

lemma mem_dedupFirst_keys (l : List Request) (k : String) :
    k ∈ (dedupFirst l []).map Request.student_key ↔
      k ∈ l.map Request.student_key := by
  constructor
  · intro h
    rcases List.mem_map.mp h with ⟨r, hr, hkey⟩
    have hrl : r ∈ l := by
      have hsub : List.Sublist (dedupFirst l []) l := by
        clear h hr hkey
        generalize hseen : ([] : List String) = seen
        clear hseen
        induction l generalizing seen with
        | nil => simp [dedupFirst]
        | cons a rest ih =>
          unfold dedupFirst
          split
          · exact List.Sublist.cons a (ih seen)
          · exact List.Sublist.cons₂ a (ih (a.student_key :: seen))
      exact hsub.subset hr
    exact hkey ▸ List.mem_map_of_mem Request.student_key hrl
  · intro h
    rcases List.mem_map.mp h with ⟨r, hr, hkey⟩
    have hfind : (l.find? (fun r2 => decide (r2.student_key = k))).isSome = true := by
      rw [List.find?_isSome]
      exact ⟨r, hr, by simp [hkey]⟩
    cases hfq : l.find? (fun r2 => decide (r2.student_key = k)) with
    | none => rw [hfq] at hfind; cases hfind
    | some r0 =>
      have hmem0 : r0 ∈ (dedupFirst l []).filter (fun r2 => decide (r2.student_key = k)) := by
        rw [dedupFirst_filter_key l [] k (by simp), hfq]
        exact List.mem_cons_self r0 []
      have hr0 := List.mem_filter.mp hmem0
      have : r0.student_key = k := by
        have := hr0.2
        rwa [decide_eq_true_iff] at this
      exact this ▸ List.mem_map_of_mem Request.student_key hr0.1

/-! ### Reconciler lemmas -/

/-- The result map claimed by §4.4 steps 3–4, before backend outcomes. -/
def preMap (valid : List String) (reqs : List Request) : List (String × String) :=
  claimAll (claimAll [] (dupEntries reqs)) (invalidEntries valid reqs)

lemma reconcile_merge (valid : List String) (reqs : List Request) (reply : BackendReply)
    (outcomes : List (String × String)) (h : mergedOutcomes reply = some outcomes) :
    reconcile valid reqs reply =
      (claimAll (preMap valid reqs) outcomes,
        aggregateCode valid (claimAll (preMap valid reqs) outcomes)) := by
  unfold reconcile preMap
  rw [h]

lemma reconcile_fail (valid : List String) (reqs : List Request) (reply : BackendReply)
    (h : mergedOutcomes reply = none) :
    reconcile valid reqs reply =
      (setAll (preMap valid reqs)
        ((forwardedPayload valid reqs).map (fun r => (r.student_key, "internal-error"))),
        422) := by
  unfold reconcile preMap
  rw [h]

lemma preMap_values (valid : List String) (reqs : List Request) (kv : String × String)
    (h : kv ∈ preMap valid reqs) : kv.2 = "duplicated" ∨ kv.2 = "invalid-status" := by
  unfold preMap at h
  rcases mem_claimAll _ _ _ h with h2 | h2
  · rcases mem_claimAll _ _ _ h2 with h3 | h3
    · cases h3
    · rcases List.mem_map.mp h3 with ⟨k0, _, heq⟩
      exact Or.inl (by rw [← heq])
  · rcases List.mem_map.mp h2 with ⟨r0, _, heq⟩
    exact Or.inr (by rw [← heq])

lemma failMap_values (valid : List String) (reqs : List Request) (kv : String × String)
    (h : kv ∈ setAll (preMap valid reqs)
      ((forwardedPayload valid reqs).map (fun r => (r.student_key, "internal-error")))) :
    kv.2 = "duplicated" ∨ kv.2 = "invalid-status" ∨ kv.2 = "internal-error" := by
  rcases mem_setAll _ _ _ h with h2 | h2
  · rcases preMap_values valid reqs kv h2 with h3 | h3
    · exact Or.inl h3
    · exact Or.inr (Or.inl h3)
  · rw [List.map_map] at h2
    rcases List.mem_map.mp h2 with ⟨r0, _, heq⟩
    exact Or.inr (Or.inr heq.symm)

lemma forwarded_keys_nodup (valid : List String) (reqs : List Request) :
    ((forwardedPayload valid reqs).map Request.student_key).Nodup :=
  (dedupFirst_keys_nodup reqs []).sublist ((List.filter_sublist _).map _)

lemma alookup_forwarded_internal_error (valid : List String) (reqs : List Request)
    (r : Request) (hr : r ∈ forwardedPayload valid reqs) :
    alookup r.student_key (setAll (preMap valid reqs)
      ((forwardedPayload valid reqs).map (fun r2 => (r2.student_key, "internal-error")))) =
      some "internal-error" := by
  apply alookup_setAll_mem
  · rw [List.map_map]
    exact forwarded_keys_nodup valid reqs
  · exact List.mem_map_of_mem (fun r2 => (r2.student_key, "internal-error")) hr

lemma failMap_ne_nil (valid : List String) (reqs : List Request) (hne : reqs ≠ []) :
    setAll (preMap valid reqs)
      ((forwardedPayload valid reqs).map (fun r => (r.student_key, "internal-error"))) ≠
      [] := by
  cases reqs with
  | nil => cases hne rfl
  | cons a rest =>
    have hdedup : dedupFirst (a :: rest) [] = a :: dedupFirst rest [a.student_key] := by
      simp [dedupFirst]
    by_cases hv : isValidStatus valid a.status = true
    · have hfwd : a ∈ forwardedPayload valid (a :: rest) := by
        unfold forwardedPayload
        rw [hdedup]
        exact List.mem_filter.mpr ⟨List.mem_cons_self _ _, hv⟩
      exact alookup_ne_nil a.student_key _
        (by rw [alookup_forwarded_internal_error valid (a :: rest) a hfwd]; rfl)
    · have hinv : (a.student_key, "invalid-status") ∈ invalidEntries valid (a :: rest) := by
        unfold invalidEntries
        rw [hdedup]
        exact List.mem_map_of_mem _
          (List.mem_filter.mpr ⟨List.mem_cons_self _ _, by simp [hv]⟩)
      have hpre : (alookup a.student_key (preMap valid (a :: rest))).isSome = true := by
        unfold preMap
        rw [alookup_claimAll]
        have : (alookup a.student_key (invalidEntries valid (a :: rest))).isSome = true :=
          alookup_isSome_of_mem_keys _ _
            (List.mem_map_of_mem Prod.fst hinv)
        cases h1 : alookup a.student_key (claimAll [] (dupEntries (a :: rest)))
        · rw [orO]
          exact this
        · rfl
      exact alookup_ne_nil a.student_key _ (alookup_setAll_isSome _ _ _ hpre)

/-! ### Aggregate-code lemmas -/

lemma aggregateCode_all_valid (valid : List String) (m : List (String × String))
    (h : ∀ kv ∈ m, isValidStatus valid kv.2 = true) :
    aggregateCode valid m = 200 := by
  unfold aggregateCode
  rw [if_pos]
  rw [List.isEmpty_iff, List.filter_eq_nil_iff]
  intro kv hkv
  simp [h kv hkv]

lemma aggregateCode_mixed (valid : List String) (m : List (String × String))
    (kv1 kv2 : String × String) (h1 : kv1 ∈ m) (hv1 : isValidStatus valid kv1.2 = true)
    (h2 : kv2 ∈ m) (hv2 : isValidStatus valid kv2.2 = false) :
    aggregateCode valid m = 207 := by
  unfold aggregateCode
  rw [if_neg, if_neg]
  · intro hemp
    rw [List.isEmpty_iff] at hemp
    have : kv1 ∈ m.filter (fun kv => isValidStatus valid kv.2) :=
      List.mem_filter.mpr ⟨h1, hv1⟩
    rw [hemp] at this
    cases this
  · intro hemp
    rw [List.isEmpty_iff] at hemp
    have : kv2 ∈ m.filter (fun kv => !(isValidStatus valid kv.2)) :=
      List.mem_filter.mpr ⟨h2, by simp [hv2]⟩
    rw [hemp] at this
    cases this

lemma aggregateCode_none_valid (valid : List String) (m : List (String × String))
    (h : ∀ kv ∈ m, isValidStatus valid kv.2 = false) (hne : m ≠ []) :
    aggregateCode valid m = 422 := by
  unfold aggregateCode
  rw [if_neg, if_pos]
  · rw [List.isEmpty_iff, List.filter_eq_nil_iff]
    intro kv hkv
    simp [h kv hkv]
  · intro hemp
    rw [List.isEmpty_iff, List.filter_eq_nil_iff] at hemp
    cases m with
    | nil => exact hne rfl
    | cons kv rest =>
      exact hemp kv (List.mem_cons_self _ _) (by simp [h kv (List.mem_cons_self _ _)])

/-- The maximum enrollment-write batch size configured in the repository
(the mock test suite sends 26 items to exceed it). -/
def ENROLLMENT_WRITE_MAX_SIZE : Nat := 25

/-! ### Claim theorems about the Bulk-Write Reconciler -/

/-- C1: for every batch processed by the Bulk-Write Reconciler (past
structural and size validation), the aggregate HTTP status code is determined
by the merged per-student result map: every entry a success → 200; at least
one success and at least one failure-class entry (duplicated, invalid-status,
or backend-reported conflict) → 207; zero successes and at least one
processed entry → 422.  The batch is assumed nonempty, and the failure marks
are assumed not to be valid enrollment statuses. -/
theorem aggregate_code_cases (valid : List String) (reqs : List Request)
    (reply : BackendReply) (hne : reqs ≠ [])
    (hdup : "duplicated" ∉ valid) (hinv : "invalid-status" ∉ valid)
    (hconf : "conflict" ∉ valid) (hierr : "internal-error" ∉ valid) :
    ((∀ kv ∈ (reconcile valid reqs reply).1, isValidStatus valid kv.2 = true) →
      (reconcile valid reqs reply).2 = 200) ∧
    (((∃ kv ∈ (reconcile valid reqs reply).1, isValidStatus valid kv.2 = true) ∧
      (∃ kv ∈ (reconcile valid reqs reply).1,
        kv.2 = "duplicated" ∨ kv.2 = "invalid-status" ∨ kv.2 = "conflict")) →
      (reconcile valid reqs reply).2 = 207) ∧
    (((∀ kv ∈ (reconcile valid reqs reply).1, isValidStatus valid kv.2 = false) ∧
      (reconcile valid reqs reply).1 ≠ []) →
      (reconcile valid reqs reply).2 = 422) := by
  have hmarks : ∀ kv : String × String,
      kv.2 = "duplicated" ∨ kv.2 = "invalid-status" ∨ kv.2 = "conflict" →
      isValidStatus valid kv.2 = false := by
    intro kv hkv
    rcases hkv with h | h | h <;>
      first
      | (rw [h]; exact decide_eq_false hdup)
      | (rw [h]; exact decide_eq_false hinv)
      | (rw [h]; exact decide_eq_false hconf)
  cases hre : mergedOutcomes reply with
  | some outcomes =>
    rw [reconcile_merge valid reqs reply outcomes hre]
    dsimp only
    refine ⟨?_, ?_, ?_⟩
    · intro hall
      exact aggregateCode_all_valid valid _ hall
    · rintro ⟨⟨kv1, h1, hv1⟩, ⟨kv2, h2, hv2⟩⟩
      exact aggregateCode_mixed valid _ kv1 kv2 h1 hv1 h2 (hmarks kv2 hv2)
    · rintro ⟨hall, hne2⟩
      exact aggregateCode_none_valid valid _ hall hne2
  | none =>
    rw [reconcile_fail valid reqs reply hre]
    dsimp only
    have hvals : ∀ kv ∈ setAll (preMap valid reqs)
        ((forwardedPayload valid reqs).map (fun r => (r.student_key, "internal-error"))),
        isValidStatus valid kv.2 = false := by
      intro kv hkv
      rcases failMap_values valid reqs kv hkv with h | h | h
      · rw [h]; exact decide_eq_false hdup
      · rw [h]; exact decide_eq_false hinv
      · rw [h]; exact decide_eq_false hierr
    refine ⟨?_, ?_, ?_⟩
    · intro hall
      exfalso
      rcases List.exists_mem_of_ne_nil _ (failMap_ne_nil valid reqs hne) with ⟨kv, hkv⟩
      have h1 := hall kv hkv
      have h2 := hvals kv hkv
      rw [h1] at h2
      cases h2
    · rintro ⟨⟨kv1, h1, hv1⟩, _⟩
      exfalso
      have h2 := hvals kv1 h1
      rw [hv1] at h2
      cases h2
    · intro _
      rfl

/-- Witness for aggregate_code_cases: the three §8 scenarios — an all-success
batch yields 200, a batch with a duplicate and an invalid status yields 207,
and an all-conflict backend 422 reply yields 422. -/
theorem aggregate_code_cases_witness :
    (reconcile programStatuses
      [⟨"001", "enrolled"⟩, ⟨"002", "enrolled"⟩, ⟨"003", "pending"⟩]
      (.http 200 [("001", "enrolled"), ("002", "enrolled"), ("003", "pending")])).2 = 200 ∧
    (reconcile programStatuses
      [⟨"A", "enrolled"⟩, ⟨"A", "enrolled"⟩, ⟨"B", "not-a-status"⟩, ⟨"C", "enrolled"⟩]
      (.http 200 [("A", "enrolled"), ("C", "enrolled")])).2 = 207 ∧
    (reconcile programStatuses
      [⟨"001", "enrolled"⟩, ⟨"002", "enrolled"⟩, ⟨"003", "pending"⟩]
      (.http 422 [("001", "conflict"), ("002", "conflict"), ("003", "conflict")])).2 = 422 :=
  ⟨(aggregate_code_cases programStatuses _ _
      (by decide) (by decide) (by decide) (by decide) (by decide)).1 (by decide),
    (aggregate_code_cases programStatuses _ _
      (by decide) (by decide) (by decide) (by decide) (by decide)).2.1 (by decide),
    (aggregate_code_cases programStatuses _ _
      (by decide) (by decide) (by decide) (by decide) (by decide)).2.2 (by decide)⟩

/-- C2 counterexample: in the batch 001-enrolled, 002-enrolled, 001-pending,
the first occurrence of 001 is forwarded and the backend reports `enrolled`
for it, yet the result map reports `duplicated` for 001, not the backend's
outcome — matching the mock test `test_duplicate_enrollment` and refuting the
claim that the first occurrence takes the backend's outcome in the result
map. -/
theorem duplicate_first_occurrence_outcome_cex :
    alookup "001" (reconcile programStatuses
      [⟨"001", "enrolled"⟩, ⟨"002", "enrolled"⟩, ⟨"001", "pending"⟩]
      (.http 200 [("001", "enrolled"), ("002", "enrolled")])).1 = some "duplicated" ∧
    alookup "001" (reconcile programStatuses
      [⟨"001", "enrolled"⟩, ⟨"002", "enrolled"⟩, ⟨"001", "pending"⟩]
      (.http 200 [("001", "enrolled"), ("002", "enrolled")])).1 ≠ some "enrolled" := by
  exact ⟨by decide, by decide⟩

/-- C2 (amended): for every batch containing a repeated student key whose
first occurrence carries a valid status, exactly one occurrence — the first —
survives to be forwarded to the backend, later occurrences being excluded;
and the result map reports `duplicated` for that key (the duplicate mark
claims the slot first, so the backend's outcome for the key is not
reflected). -/
theorem duplicate_detection_amended (valid : List String) (reqs : List Request)
    (reply : BackendReply) (outcomes : List (String × String)) (k : String) (r0 : Request)
    (hfind : reqs.find? (fun r => decide (r.student_key = k)) = some r0)
    (hcount : 2 ≤ countKey k reqs)
    (hvalid : isValidStatus valid r0.status = true)
    (hmerge : mergedOutcomes reply = some outcomes) :
    (forwardedPayload valid reqs).filter (fun r => decide (r.student_key = k)) = [r0] ∧
    alookup k (reconcile valid reqs reply).1 = some "duplicated" := by
  constructor
  · have hcomm : (forwardedPayload valid reqs).filter (fun r => decide (r.student_key = k)) =
        ((dedupFirst reqs []).filter (fun r => decide (r.student_key = k))).filter
          (fun r => isValidStatus valid r.status) := by
      unfold forwardedPayload
      rw [List.filter_filter, List.filter_filter]
      congr 1
      funext r
      exact Bool.and_comm _ _
    rw [hcomm, dedupFirst_filter_key reqs [] k (List.not_mem_nil k), hfind]
    show [r0].filter (fun r => isValidStatus valid r.status) = [r0]
    simp [List.filter_cons, hvalid]
  · have hkey : r0.student_key = k := by
      have h0 := List.find?_some hfind
      rwa [decide_eq_true_iff] at h0
    have hkdedup : k ∈ (dedupFirst reqs []).map Request.student_key := by
      rw [mem_dedupFirst_keys]
      rw [← hkey]
      exact List.mem_map_of_mem Request.student_key (List.mem_of_find?_eq_some hfind)
    have hkdup : k ∈ dupKeys reqs := by
      unfold dupKeys
      exact List.mem_filter.mpr ⟨hkdedup, by simp [hcount]⟩
    have hdupval : alookup k (dupEntries reqs) = some "duplicated" := by
      unfold dupEntries
      rw [alookup_map_const, if_pos hkdup]
    rw [reconcile_merge valid reqs reply outcomes hmerge]
    dsimp only
    unfold preMap
    rw [alookup_claimAll, alookup_claimAll, alookup_claimAll, hdupval]
    rfl

/-- Witness for duplicate_detection_amended: student A appears twice with a
valid first occurrence; only the first occurrence is forwarded and the map
slot for A reads `duplicated`. -/
theorem duplicate_detection_amended_witness :
    (forwardedPayload programStatuses
      [⟨"A", "enrolled"⟩, ⟨"B", "enrolled"⟩, ⟨"A", "pending"⟩]).filter
      (fun r => decide (r.student_key = "A")) = [⟨"A", "enrolled"⟩] ∧
    alookup "A" (reconcile programStatuses
      [⟨"A", "enrolled"⟩, ⟨"B", "enrolled"⟩, ⟨"A", "pending"⟩]
      (.http 200 [("A", "enrolled"), ("B", "enrolled")])).1 = some "duplicated" :=
  duplicate_detection_amended programStatuses
    [⟨"A", "enrolled"⟩, ⟨"B", "enrolled"⟩, ⟨"A", "pending"⟩]
    (.http 200 [("A", "enrolled"), ("B", "enrolled")])
    [("A", "enrolled"), ("B", "enrolled")] "A" ⟨"A", "enrolled"⟩
    (by decide) (by decide) (by decide) (by decide)

/-- C3: for every forwarded batch, if the backend enrollment-write call fails
entirely (transport error, or a generic status that is neither 2xx nor 207
nor 422), every actually forwarded entry is marked internal-error in the
result map and the aggregate code is 422.  `reconcile` is a total function,
so no exception propagates to the client. -/
theorem backend_failure_internal_error (valid : List String) (reqs : List Request)
    (reply : BackendReply) (hfail : mergedOutcomes reply = none) :
    (reconcile valid reqs reply).2 = 422 ∧
    ∀ r ∈ forwardedPayload valid reqs,
      alookup r.student_key (reconcile valid reqs reply).1 = some "internal-error" := by
  rw [reconcile_fail valid reqs reply hfail]
  exact ⟨rfl, fun r hr => alookup_forwarded_internal_error valid reqs r hr⟩

/-- Witness for backend_failure_internal_error: a transport error gives 422,
and a generic 500 reply marks the forwarded student internal-error. -/
theorem backend_failure_internal_error_witness :
    (reconcile programStatuses
      [⟨"001", "enrolled"⟩, ⟨"002", "enrolled"⟩, ⟨"003", "pending"⟩]
      BackendReply.transportError).2 = 422 ∧
    alookup "001" (reconcile programStatuses
      [⟨"001", "enrolled"⟩, ⟨"002", "enrolled"⟩, ⟨"003", "pending"⟩]
      (.http 500 [])).1 = some "internal-error" :=
  ⟨(backend_failure_internal_error programStatuses
      [⟨"001", "enrolled"⟩, ⟨"002", "enrolled"⟩, ⟨"003", "pending"⟩]
      BackendReply.transportError (by decide)).1,
    (backend_failure_internal_error programStatuses
      [⟨"001", "enrolled"⟩, ⟨"002", "enrolled"⟩, ⟨"003", "pending"⟩]
      (.http 500 []) (by decide)).2 ⟨"001", "enrolled"⟩ (by decide)⟩

/-- C4: a batch longer than the configured maximum fails fast with a 413
payload-too-large response, and the backend is never called (the forwarded
payload component is `none`), whatever the backend would have replied. -/
theorem payload_too_large_no_backend_call (valid : List String) (maxSize : Nat)
    (reqs : List Request) (reply : BackendReply) (h : maxSize < reqs.length) :
    enrollmentWrite valid maxSize reqs reply = (.payloadTooLarge, none) ∧
    (enrollmentWrite valid maxSize reqs reply).1.httpCode = 413 := by
  unfold enrollmentWrite
  rw [if_pos h]
  exact ⟨rfl, rfl⟩

/-- Witness for payload_too_large_no_backend_call: 26 requests against the
configured maximum of 25. -/
theorem payload_too_large_no_backend_call_witness :
    enrollmentWrite programStatuses ENROLLMENT_WRITE_MAX_SIZE
      (List.replicate 26 ⟨"s", "enrolled"⟩) BackendReply.transportError =
      (.payloadTooLarge, none) ∧
    (enrollmentWrite programStatuses ENROLLMENT_WRITE_MAX_SIZE
      (List.replicate 26 ⟨"s", "enrolled"⟩) BackendReply.transportError).1.httpCode = 413 :=
  payload_too_large_no_backend_call programStatuses ENROLLMENT_WRITE_MAX_SIZE
    (List.replicate 26 ⟨"s", "enrolled"⟩) BackendReply.transportError (by decide)

/-! ### Job-subsystem lemmas and claim theorems -/

lemma alookup_setEntry (L : Ledger) (jid : String) (f : JobEntry → JobEntry)
    (e : JobEntry) (h : alookup jid L = some e) :
    alookup jid (setEntry L jid f) = some (f e) := by
  induction L with
  | nil => simp [alookup] at h
  | cons kv rest ih =>
    by_cases hk : kv.1 = jid
    · have he : kv.2 = e := by
        rw [alookup, if_pos hk] at h
        exact Option.some.inj h
      simp [setEntry, alookup, hk, he]
    · rw [alookup, if_neg hk] at h
      simpa [setEntry, alookup, hk] using ih h

lemma isProcessing_iff (s : JobState) :
    s.isProcessing = true ↔ (s = .pending ∨ s = .inProgress ∨ s = .retrying) := by
  cases s <;> simp [JobState.isProcessing]

/-- C5: for every request to the Job Status Endpoint, the result is NotFound
when the job id resolves to no ledger entry, Forbidden when the requester is
neither the owner nor holds the global job-read capability, and the job
status view (HTTP 200) when the requester is the owner or holds the
capability. -/
theorem job_status_endpoint_cases (L : Ledger) (u jid : String) (g : Bool) :
    (alookup jid L = none → get_status L u g jid = .notFound) ∧
    (∀ e : JobEntry, alookup jid L = some e → (u = e.owner ∨ g = true) →
      get_status L u g jid = .ok (mkView e)) ∧
    (∀ e : JobEntry, alookup jid L = some e → u ≠ e.owner → g = false →
      get_status L u g jid = .forbidden) := by
  refine ⟨?_, ?_, ?_⟩
  · intro h
    unfold get_status
    rw [h]
  · intro e he hauth
    unfold get_status
    rw [he]
    exact if_pos hauth
  · intro e he hown hg
    unfold get_status
    rw [he]
    refine if_neg ?_
    rintro (h1 | h2)
    · exact hown h1
    · rw [hg] at h2
      cases h2

/-- Witness for job_status_endpoint_cases: a ledger with one job owned by
stem-admin — an unknown id is NotFound, the owner reads the view, another
user without the capability is Forbidden. -/
theorem job_status_endpoint_cases_witness :
    get_status [("j1", ⟨"stem-admin", JobState.succeeded, 3, none,
      some "/job-results/j1.json"⟩)] "stem-admin" false "missing" = .notFound ∧
    get_status [("j1", ⟨"stem-admin", JobState.succeeded, 3, none,
      some "/job-results/j1.json"⟩)] "stem-admin" false "j1" =
      .ok (mkView ⟨"stem-admin", JobState.succeeded, 3, none,
        some "/job-results/j1.json"⟩) ∧
    get_status [("j1", ⟨"stem-admin", JobState.succeeded, 3, none,
      some "/job-results/j1.json"⟩)] "hum-admin" false "j1" = .forbidden :=
  ⟨(job_status_endpoint_cases
      [("j1", ⟨"stem-admin", JobState.succeeded, 3, none, some "/job-results/j1.json"⟩)]
      "stem-admin" "missing" false).1 (by decide),
    (job_status_endpoint_cases
      [("j1", ⟨"stem-admin", JobState.succeeded, 3, none, some "/job-results/j1.json"⟩)]
      "stem-admin" "j1" false).2.1
      ⟨"stem-admin", JobState.succeeded, 3, none, some "/job-results/j1.json"⟩
      (by decide) (Or.inl rfl),
    (job_status_endpoint_cases
      [("j1", ⟨"stem-admin", JobState.succeeded, 3, none, some "/job-results/j1.json"⟩)]
      "hum-admin" "j1" false).2.2
      ⟨"stem-admin", JobState.succeeded, 3, none, some "/job-results/j1.json"⟩
      (by decide) (by decide) rfl⟩

/-- C6 counterexample: report_failure on a pending job with reason
"everything is broken" leaves the job's status text null (the reason is not
recorded as status text), matching `test_failed_job`, which asserts the
failed job's text is None while the transition to Failed does happen. -/
theorem report_failure_text_cex :
    (alookup "j1" (post_job_failure
      [("j1", ⟨"stem-admin", JobState.pending, 0, none, none⟩)] [] "j1"
      "everything is broken").1).bind JobEntry.text = none ∧
    (alookup "j1" (post_job_failure
      [("j1", ⟨"stem-admin", JobState.pending, 0, none, none⟩)] [] "j1"
      "everything is broken").1).map JobEntry.state = some JobState.failed := by
  exact ⟨by decide, by decide⟩

/-- C6 (amended): report_failure transitions the ledger entry to Failed and
appends to the error log a message containing both the job id and the
failure message; the reason text is not recorded as the job's visible status
text, which is left null. -/
theorem report_failure_amended (L : Ledger) (log : List String) (jid reason : String)
    (e : JobEntry) (h : alookup jid L = some e) :
    alookup jid (post_job_failure L log jid reason).1 =
      some ⟨e.owner, .failed, e.created, none, none⟩ ∧
    (post_job_failure L log jid reason).2 = log ++ [failureLogMessage jid reason] ∧
    (∃ a b : String, failureLogMessage jid reason = a ++ (jid ++ b)) ∧
    (∃ a : String, failureLogMessage jid reason = a ++ reason) := by
  refine ⟨?_, rfl, ⟨"Job ", " failed: " ++ reason, ?_⟩,
    ⟨"Job " ++ jid ++ " failed: ", rfl⟩⟩
  · exact alookup_setEntry L jid
      (fun e2 => ⟨e2.owner, .failed, e2.created, none, none⟩) e h
  · unfold failureLogMessage
    rw [String.append_assoc, String.append_assoc]

/-- Witness for report_failure_amended at a concrete one-job ledger. -/
theorem report_failure_amended_witness :
    alookup "j1" (post_job_failure
      [("j1", ⟨"stem-admin", JobState.pending, 4, none, none⟩)] [] "j1" "boom").1 =
      some ⟨"stem-admin", .failed, 4, none, none⟩ ∧
    (post_job_failure
      [("j1", ⟨"stem-admin", JobState.pending, 4, none, none⟩)] [] "j1" "boom").2 =
      [] ++ [failureLogMessage "j1" "boom"] :=
  ⟨(report_failure_amended
      [("j1", ⟨"stem-admin", JobState.pending, 4, none, none⟩)] [] "j1" "boom"
      ⟨"stem-admin", JobState.pending, 4, none, none⟩ (by decide)).1,
    (report_failure_amended
      [("j1", ⟨"stem-admin", JobState.pending, 4, none, none⟩)] [] "j1" "boom"
      ⟨"stem-admin", JobState.pending, 4, none, none⟩ (by decide)).2.1⟩

/-- C7 counterexample: a Retrying ledger entry is readable through the Job
Status Endpoint and its serialized state, "Retrying", is not among the five
values Pending, In Progress, Succeeded, Failed, Canceled — the state
enumeration exposed by the endpoint has six values, not five. -/
theorem job_view_state_count_cex :
    get_status [("j7", ⟨"stem-admin", JobState.retrying, 5, none, none⟩)]
      "stem-admin" false "j7" = .ok ⟨"Retrying", 5, none, none⟩ ∧
    "Retrying" ∉ ["Pending", "In Progress", "Succeeded", "Failed", "Canceled"] := by
  exact ⟨by decide, by decide⟩

/-- C7 (amended): for every authorized read of a job's status, the returned
view contains the state serialized as one of the six enumerated values, the
creation timestamp, and a nullable status text; it contains a time-bounded
result URL if and only if the job's state is Succeeded (assuming the ledger
invariant that a Succeeded entry has a result locator). -/
theorem job_view_contents_amended (L : Ledger) (u jid : String) (g : Bool)
    (e : JobEntry) (h : alookup jid L = some e) (hauth : u = e.owner ∨ g = true)
    (hwf : e.state = .succeeded → e.resultPath.isSome = true) :
    get_status L u g jid = .ok (mkView e) ∧
    (mkView e).state ∈
      ["Pending", "In Progress", "Retrying", "Succeeded", "Failed", "Canceled"] ∧
    (mkView e).created = e.created ∧
    (mkView e).text = e.text ∧
    ((mkView e).result.isSome = true ↔ e.state = .succeeded) ∧
    (∀ p, e.state = .succeeded → e.resultPath = some p →
      (mkView e).result = some (storeUrl p urlTimeBound)) := by
  refine ⟨?_, ?_, rfl, rfl, ?_, ?_⟩
  · unfold get_status
    rw [h]
    exact if_pos hauth
  · cases hstate : e.state <;> simp [mkView, hstate, JobState.serialize]
  · by_cases hs : e.state = .succeeded
    · cases hpath : e.resultPath with
      | none =>
        have h2 := hwf hs
        rw [hpath] at h2
        cases h2
      | some p => simp [mkView, hs, hpath]
    · simp [mkView, hs]
  · intro p hs hp
    simp [mkView, hs, hp]

/-- Witness for job_view_contents_amended: an authorized read of a Succeeded
job whose view carries the artifact URL. -/
theorem job_view_contents_amended_witness :
    get_status [("j2", ⟨"stem-admin", JobState.succeeded, 7, some "OK",
      some "/job-results/j2.json"⟩)] "stem-admin" false "j2" =
      .ok (mkView ⟨"stem-admin", JobState.succeeded, 7, some "OK",
        some "/job-results/j2.json"⟩) ∧
    (mkView (⟨"stem-admin", JobState.succeeded, 7, some "OK",
      some "/job-results/j2.json"⟩ : JobEntry)).result.isSome = true :=
  ⟨(job_view_contents_amended
      [("j2", ⟨"stem-admin", JobState.succeeded, 7, some "OK", some "/job-results/j2.json"⟩)]
      "stem-admin" "j2" false
      ⟨"stem-admin", JobState.succeeded, 7, some "OK", some "/job-results/j2.json"⟩
      (by decide) (Or.inl rfl) (by decide)).1,
    ((job_view_contents_amended
      [("j2", ⟨"stem-admin", JobState.succeeded, 7, some "OK", some "/job-results/j2.json"⟩)]
      "stem-admin" "j2" false
      ⟨"stem-admin", JobState.succeeded, 7, some "OK", some "/job-results/j2.json"⟩
      (by decide) (Or.inl rfl) (by decide)).2.2.2.2.1).mpr rfl⟩

/-- C9 counterexample: a freshly created (maximally recent) Succeeded job
owned by the requesting user is not included in the job list response, so the
listing does not contain recent terminal jobs — matching the repository's
`JobStatusListView` tests, where users whose jobs are all terminal get an
empty list. -/
theorem job_list_recent_terminal_cex :
    listJobs [("j9", ⟨"stem-user", JobState.succeeded, 100, none,
      some "/job-results/j9.json"⟩)] "stem-user" = [] ∧
    (⟨"stem-user", JobState.succeeded, 100, none,
      some "/job-results/j9.json"⟩ : JobEntry).state.isTerminal = true := by
  exact ⟨by decide, by decide⟩

/-- C9 (amended): GET /jobs/ returns 200 with exactly the requesting user's
jobs in a processing state (Pending, In Progress, Retrying); terminal jobs —
however recent — and jobs owned by other users are never included. -/
theorem job_list_amended (L : Ledger) (u : String) (kv : String × JobEntry) :
    (jobListResponse L u).1 = 200 ∧
    (kv ∈ (jobListResponse L u).2 ↔
      kv ∈ L ∧ kv.2.owner = u ∧
        (kv.2.state = .pending ∨ kv.2.state = .inProgress ∨ kv.2.state = .retrying)) := by
  refine ⟨rfl, ?_⟩
  unfold jobListResponse listJobs
  dsimp only
  rw [List.mem_filter]
  constructor
  · rintro ⟨hmem, hp⟩
    rw [Bool.and_eq_true, decide_eq_true_iff] at hp
    exact ⟨hmem, hp.1, (isProcessing_iff _).mp hp.2⟩
  · rintro ⟨hmem, howner, hstate⟩
    refine ⟨hmem, ?_⟩
    rw [Bool.and_eq_true, decide_eq_true_iff]
    exact ⟨howner, (isProcessing_iff _).mpr hstate⟩

/-- Witness for job_list_amended: an In Progress job owned by the caller is
listed. -/
theorem job_list_amended_witness :
    ("j5", (⟨"stem-admin", JobState.inProgress, 1, none, none⟩ : JobEntry)) ∈
      (jobListResponse [("j5", ⟨"stem-admin", JobState.inProgress, 1, none, none⟩)]
        "stem-admin").2 :=
  (job_list_amended [("j5", ⟨"stem-admin", JobState.inProgress, 1, none, none⟩)]
    "stem-admin" ("j5", ⟨"stem-admin", JobState.inProgress, 1, none, none⟩)).2.mpr
    (by decide)

/-- A field value of an exported record: a string or a boolean. -/
inductive CellValue where
  | str (s : String)
  | bool (b : Bool)
deriving DecidableEq, Repr

/-- An exported record: an association list from column name to value. -/
abbrev ExportRecord := List (String × CellValue)

/-- Modelled from the spec: rendering of one value in a CSV cell (§4.5) —
booleans serialize as the literal tokens `True` and `False`. -/
def CellValue.render : CellValue → String
  | .str s => s
  | .bool b => if b then "True" else "False"

/-- Whether a rendered CSV cell needs quoting (§4.5: values containing commas,
quotes, or newlines are quoted per standard CSV escaping). -/
def needsQuoting (s : String) : Bool :=
  s.data.any (fun c => c == ',' || c == '"' || c == '\n' || c == '\r')

/-- Double every quote character, for use inside a quoted CSV cell. -/
def escapeQuotes (s : String) : String :=
  ⟨s.data.foldr (fun c acc => if c == '"' then '"' :: '"' :: acc else c :: acc) []⟩

/-- Modelled from the spec: one CSV cell, quoted exactly when needed (§4.5). -/
def csvCell (s : String) : String :=
  if needsQuoting s then "\"" ++ escapeQuotes s ++ "\"" else s

/-- Join strings with comma separators. -/
def commaJoin : List String → String
  | [] => ""
  | [s] => s
  | s :: rest => s ++ "," ++ commaJoin rest

/-- One CSV line: comma-joined quoted cells followed by CRLF, as emitted by
the CSV writer used in the repository's expected test outputs. -/
def csvLine (cells : List String) : String :=
  commaJoin (cells.map csvCell) ++ "\r\n"

/-- Append a key to a column list unless already present. -/
def insertColumn (ks : List String) (k : String) : List String :=
  if k ∈ ks then ks else ks ++ [k]

/-- The column names of one record, in order. -/
def recordColumns (r : ExportRecord) : List String :=
  r.map Prod.fst

/-- Modelled from the spec: the CSV header columns — the union of keys across
all records, in first-seen order (§4.5). -/
def firstSeenColumns (records : List ExportRecord) : List String :=
  records.foldl (fun acc r => (recordColumns r).foldl insertColumn acc) []

/-- The rendered cell of record `r` in column `k`: a missing key renders as an
empty field (§4.5). -/
def renderCell (r : ExportRecord) (k : String) : String :=
  match alookup k r with
  | none => ""
  | some v => v.render

/-- Modelled from the spec: the Export Pipeline's CSV serialization (§4.5):
write the header line, then one line per record in order, in the style of a
row-at-a-time CSV writer. -/
def serialize_to_csv (records : List ExportRecord) : String :=
  let header := firstSeenColumns records
  records.foldl (fun acc r => acc ++ csvLine (header.map (renderCell r)))
    (csvLine header)

/-- Modelled from the spec: responses of the enrollment CSV upload endpoint
(§6): 202 with a job handle on acceptance, 400 on header mismatch. -/
inductive UploadResponse where
  | accepted (jobId jobUrl : String)
  | badRequest
deriving DecidableEq, Repr

/-- HTTP status code of an upload response. -/
def UploadResponse.httpCode : UploadResponse → Nat
  | .accepted _ _ => 202
  | .badRequest => 400

/-- Modelled from the spec: the upload header check (§6: "400 on header
mismatch or missing required fields") as pinned by the repository's tests
`test_extra_columns` and `test_enrollment_upload_invalid_header`: every
required column must appear in the uploaded header row; unrecognized extra
columns are tolerated. -/
def uploadHeaderOk (required header : List String) : Bool :=
  required.all (fun c => decide (c ∈ header))

/-- Modelled from the spec: the enrollment upload endpoint's header
validation step (§6): accept the file and start a job when every required
column is present, otherwise reject with 400. -/
def enrollmentUpload (required header : List String) (jobId : String) : UploadResponse :=
  if uploadHeaderOk required header then .accepted jobId ("/jobs/" ++ jobId)
  else .badRequest

/-- Required columns of the program enrollment upload endpoint. -/
def programUploadColumns : List String := ["student_key", "status"]

/-- Required columns of the course enrollment upload endpoint. -/
def courseUploadColumns : List String := ["student_key", "course_id", "status"]

/-! ### Export-pipeline lemmas and claim theorems -/

/-- Concatenation of a list of strings, used to state what the row-at-a-time
CSV writer produces. -/
def strConcat : List String → String
  | [] => ""
  | s :: rest => s ++ strConcat rest

lemma foldl_append_strConcat {α : Type} (l : List α) (f : α → String) (init : String) :
    l.foldl (fun acc x => acc ++ f x) init = init ++ strConcat (l.map f) := by
  induction l generalizing init with
  | nil => simp [strConcat, String.append_empty]
  | cons a rest ih =>
    simp only [List.foldl_cons, List.map_cons, strConcat]
    rw [ih (init ++ f a), String.append_assoc]

lemma mem_insertColumn (ks : List String) (k c : String) :
    c ∈ insertColumn ks k ↔ c ∈ ks ∨ c = k := by
  unfold insertColumn
  by_cases hmem : k ∈ ks
  · rw [if_pos hmem]
    constructor
    · exact Or.inl
    · rintro (h | h)
      · exact h
      · rw [h]; exact hmem
  · rw [if_neg hmem]
    simp [List.mem_append]

lemma insertColumn_nodup (ks : List String) (k : String) (h : ks.Nodup) :
    (insertColumn ks k).Nodup := by
  unfold insertColumn
  by_cases hmem : k ∈ ks
  · rw [if_pos hmem]; exact h
  · rw [if_neg hmem]
    simp [List.nodup_append, h, hmem]

lemma mem_insertFold (ks acc : List String) (c : String) :
    c ∈ ks.foldl insertColumn acc ↔ c ∈ acc ∨ c ∈ ks := by
  induction ks generalizing acc with
  | nil => simp
  | cons k rest ih =>
    simp only [List.foldl_cons]
    rw [ih, mem_insertColumn, List.mem_cons]
    tauto

lemma insertFold_nodup (ks acc : List String) (h : acc.Nodup) :
    (ks.foldl insertColumn acc).Nodup := by
  induction ks generalizing acc with
  | nil => exact h
  | cons k rest ih => exact ih _ (insertColumn_nodup acc k h)

lemma mem_firstSeenFold (records : List ExportRecord) (acc : List String) (c : String) :
    c ∈ records.foldl (fun a r => (recordColumns r).foldl insertColumn a) acc ↔
      c ∈ acc ∨ ∃ rec ∈ records, c ∈ recordColumns rec := by
  induction records generalizing acc with
  | nil => simp
  | cons r rest ih =>
    simp only [List.foldl_cons]
    rw [ih, mem_insertFold]
    constructor
    · rintro (⟨h | h⟩ | ⟨rec, hrec, hc⟩)
      · exact Or.inl h
      · exact Or.inr ⟨r, List.mem_cons_self r rest, h⟩
      · exact Or.inr ⟨rec, List.mem_cons_of_mem r hrec, hc⟩
    · rintro (h | ⟨rec, hrec, hc⟩)
      · exact Or.inl (Or.inl h)
      · rcases List.mem_cons.mp hrec with heq | hmem
        · exact Or.inl (Or.inr (heq ▸ hc))
        · exact Or.inr ⟨rec, hmem, hc⟩

lemma mem_firstSeenColumns (records : List ExportRecord) (c : String) :
    c ∈ firstSeenColumns records ↔ ∃ rec ∈ records, c ∈ recordColumns rec := by
  unfold firstSeenColumns
  rw [mem_firstSeenFold]
  simp

lemma firstSeenColumns_nodup (records : List ExportRecord) :
    (firstSeenColumns records).Nodup := by
  unfold firstSeenColumns
  generalize hacc : ([] : List String) = acc
  have h : acc.Nodup := by rw [← hacc]; exact List.nodup_nil
  clear hacc
  induction records generalizing acc with
  | nil => exact h
  | cons r rest ih => exact ih _ (insertFold_nodup _ _ h)

lemma serialize_to_csv_decomposition (records : List ExportRecord) :
    serialize_to_csv records =
      csvLine (firstSeenColumns records) ++
        strConcat (records.map
          (fun r => csvLine ((firstSeenColumns records).map (renderCell r)))) := by
  simp only [serialize_to_csv]
  exact foldl_append_strConcat records _ _

/-- C8: for every record list serialized to CSV, the output is the header
line — whose columns are the duplicate-free union of keys across all records
(membership characterized below), in first-seen order by construction —
followed by one line per record in order; a key missing from a record
renders as an empty field, and booleans serialize as the literal tokens
True and False. -/
theorem csv_export_shape (records : List ExportRecord) (r : ExportRecord) (k : String)
    (hmiss : alookup k r = none) :
    serialize_to_csv records =
      csvLine (firstSeenColumns records) ++
        strConcat (records.map
          (fun rec => csvLine ((firstSeenColumns records).map (renderCell rec)))) ∧
    renderCell r k = "" ∧
    CellValue.render (.bool true) = "True" ∧
    CellValue.render (.bool false) = "False" ∧
    (firstSeenColumns records).Nodup ∧
    (∀ c, c ∈ firstSeenColumns records ↔ ∃ rec ∈ records, c ∈ recordColumns rec) := by
  refine ⟨serialize_to_csv_decomposition records, ?_, rfl, rfl,
    firstSeenColumns_nodup records, fun c => mem_firstSeenColumns records c⟩
  unfold renderCell
  rw [hmiss]

/-- Witness for csv_export_shape: a record lacking the `error` key renders an
empty field there, booleans render as True, and on the enrollment fixture the
serializer reproduces the exact CSV expected by the repository's
`ProgramEnrollmentGetTests`. -/
theorem csv_export_shape_witness :
    renderCell [("student_key", CellValue.str "efgh")] "error" = "" ∧
    CellValue.render (.bool true) = "True" ∧
    serialize_to_csv
      [[("student_key", CellValue.str "abcd"), ("status", CellValue.str "enrolled"),
        ("account_exists", CellValue.bool true)],
       [("student_key", CellValue.str "efgh"), ("status", CellValue.str "pending"),
        ("account_exists", CellValue.bool false)]] =
      "student_key,status,account_exists\r\nabcd,enrolled,True\r\nefgh,pending,False\r\n" :=
  ⟨(csv_export_shape
      [[("student_key", CellValue.str "abcd"), ("status", CellValue.str "enrolled"),
        ("account_exists", CellValue.bool true)]]
      [("student_key", CellValue.str "efgh")] "error" (by decide)).2.1,
    (csv_export_shape
      [[("student_key", CellValue.str "abcd"), ("status", CellValue.str "enrolled"),
        ("account_exists", CellValue.bool true)]]
      [("student_key", CellValue.str "efgh")] "error" (by decide)).2.2.1,
    by decide⟩

/-- C10: an enrollment CSV upload whose header contains every required column
— including when extra unrecognized columns are present — is accepted with a
202 response carrying a job id and job url; a missing or renamed required
column is rejected with 400. -/
theorem upload_header_validation (required header : List String) (jobId : String) :
    ((∀ c ∈ required, c ∈ header) →
      enrollmentUpload required header jobId = .accepted jobId ("/jobs/" ++ jobId) ∧
      (enrollmentUpload required header jobId).httpCode = 202) ∧
    ((∃ c ∈ required, c ∉ header) →
      enrollmentUpload required header jobId = .badRequest ∧
      (enrollmentUpload required header jobId).httpCode = 400) := by
  constructor
  · intro hall
    have hok : uploadHeaderOk required header = true := by
      rw [uploadHeaderOk, List.all_eq_true]
      intro c hc
      exact decide_eq_true (hall c hc)
    unfold enrollmentUpload
    rw [if_pos hok]
    exact ⟨rfl, rfl⟩
  · rintro ⟨c, hc, hnot⟩
    have hok : ¬(uploadHeaderOk required header = true) := by
      rw [uploadHeaderOk, List.all_eq_true]
      intro hall
      exact hnot (decide_eq_true_iff.mp (hall c hc))
    unfold enrollmentUpload
    rw [if_neg hok]
    exact ⟨rfl, rfl⟩

/-- Witness for upload_header_validation: the program upload columns plus an
extra blood_type column are accepted; renaming student_key to something is
rejected — mirroring `test_extra_columns` and
`test_enrollment_upload_invalid_header`. -/
theorem upload_header_validation_witness :
    enrollmentUpload programUploadColumns ["student_key", "status", "blood_type"] "j10" =
      .accepted "j10" ("/jobs/" ++ "j10") ∧
    enrollmentUpload programUploadColumns ["something", "status"] "j10" = .badRequest :=
  ⟨((upload_header_validation programUploadColumns
      ["student_key", "status", "blood_type"] "j10").1 (by decide)).1,
    ((upload_header_validation programUploadColumns
      ["something", "status"] "j10").2 ⟨"student_key", by decide, by decide⟩).1⟩

end Registrar
